import Mathlib

/-!
Verification of the ArtosKu ledger reconciliation engine.

The definitions below are a shallow embedding of the TypeScript source:
the in-memory application state (`wallets`, `transactions`, `debts` React
state) is an explicit `AppState` record, and each UI event handler that
mutates it becomes a total function on `AppState`.  Monetary values are
integers (the app only ever handles whole-rupiah amounts produced by
`replace(/\D/g,'')` input filters).  Timestamps are abstracted to `Nat`,
and each `new Date()` read in the source becomes an explicit clock-sample
parameter, so a handler that reads the clock more than once (such as
`handleTransfer`, which reads it separately for each leg) takes one
parameter per read and its two samples need not coincide.
-/

set_option autoImplicit false

/-- The 4-way polarity tag of a ledger entry (`TransactionType` in `types.ts`). -/
inductive TransactionType where
  | INCOME
  | EXPENSE
  | DEBT
  | RECEIVABLE
deriving DecidableEq, Repr

/-- Wallet kinds (`WalletType` in `types.ts`). -/
inductive WalletType where
  | CASH
  | BANK
  | EWALLET
deriving DecidableEq, Repr

/-- A wallet (`Wallet` in `types.ts`). -/
structure Wallet where
  id : String
  name : String
  balance : Int
  color : String
  icon : String
  type : WalletType
  provider : Option String
  detail : Option String
deriving DecidableEq, Repr

/-- A ledger entry (`Transaction` in `types.ts`); `category` is kept as a
plain string because the code also stores values outside the `Category`
union (for example `Transfer`). -/
structure Transaction where
  id : String
  amount : Int
  type : TransactionType
  category : String
  date : Nat
  description : String
  walletId : String
deriving DecidableEq, Repr

/-- A debt/receivable position (`Debt` in `types.ts`). -/
structure Debt where
  id : String
  title : String
  amount : Int
  initialAmount : Int
  dueDate : Nat
  type : TransactionType
  isPaid : Bool
  walletId : String
deriving DecidableEq, Repr

/-- The in-memory application state mirrored from the store: the three React
state lists of the `App` component in the main source file. -/
structure AppState where
  wallets : List Wallet
  transactions : List Transaction
  debts : List Debt
deriving DecidableEq, Repr

/-- Signed balance delta of a transaction, as computed inside `addTransaction`:
`isIncreasing = t.type === INCOME || t.type === DEBT`, increasing adds the
amount, otherwise it is subtracted. -/
def txDelta (t : Transaction) : Int :=
  if t.type == TransactionType.INCOME || t.type == TransactionType.DEBT then
    t.amount
  else
    -t.amount

/-- The polarity sign of each transaction type under the balance-mutation
engine's convention. -/
def txSign : TransactionType → Int
  | TransactionType.INCOME => 1
  | TransactionType.EXPENSE => -1
  | TransactionType.DEBT => 1
  | TransactionType.RECEIVABLE => -1

/-- The wallet-list update performed by `addTransaction` / `deleteTransaction`:
`const wallet = prev.find(w => w.id === id); if (!wallet) return prev;
return prev.map(w => w.id === id ? { ...wallet, balance: newBalance } : w)`. -/
def applyDelta (l : List Wallet) (i : String) (d : Int) : List Wallet :=
  match l.find? (fun x => x.id == i) with
  | none => l
  | some w => l.map (fun x => if x.id == i then { w with balance := w.balance + d } else x)

/-- Sum of all wallet balances. -/
def balSum (l : List Wallet) : Int :=
  (l.map Wallet.balance).sum

/-- The `addTransaction` handler of the main `App` component: records the transaction
(prepending it, mirroring `setTransactions(prev => [newTransaction, ...prev])`)
and, when the target wallet is found, applies the signed delta to its balance.
The persisted transaction's server id is taken as `t.id`. -/
def addTransaction (s : AppState) (t : Transaction) : AppState :=
  { s with
    wallets := applyDelta s.wallets t.walletId (txDelta t),
    transactions := t :: s.transactions }

/-- The `deleteTransaction` handler of the main `App` component: looks the transaction up
by id, reverts its balance effect with the inverse signed delta, and removes it
from the log (`prev.filter(t => t.id !== id)`). -/
def deleteTransaction (s : AppState) (i : String) : AppState :=
  match s.transactions.find? (fun t => t.id == i) with
  | none => s
  | some tx =>
      { s with
        wallets := applyDelta s.wallets tx.walletId (-(txDelta tx)),
        transactions := s.transactions.filter (fun t => t.id != i) }

/-- The outgoing leg composed by `handleTransfer`. -/
def transferOutTx (s : AppState) (fromId toId : String) (amount : Int)
    (descr : String) (now : Nat) (idOut : String) : Transaction :=
  { id := idOut,
    amount := amount,
    type := TransactionType.EXPENSE,
    category := "Transfer",
    date := now,
    description := "Transfer ke: "
      ++ (((s.wallets.find? (fun w => w.id == toId)).map Wallet.name).getD "undefined")
      ++ " - " ++ descr,
    walletId := fromId }

/-- The incoming leg composed by `handleTransfer`. -/
def transferInTx (s : AppState) (fromId toId : String) (amount : Int)
    (descr : String) (now : Nat) (idIn : String) : Transaction :=
  { id := idIn,
    amount := amount,
    type := TransactionType.INCOME,
    category := "Transfer",
    date := now,
    description := "Transfer dari: "
      ++ (((s.wallets.find? (fun w => w.id == fromId)).map Wallet.name).getD "undefined")
      ++ " - " ++ descr,
    walletId := toId }

/-- The `handleTransfer` handler: posts the EXPENSE leg on the source wallet,
then the INCOME leg on the destination wallet, each through `addTransaction`.
The source evaluates `new Date().toISOString()` separately for each leg, with
an awaited `createTransaction` call between them, so each leg carries its own
clock sample (`now1` for the outgoing leg, `now2` for the incoming one). -/
def handleTransfer (s : AppState) (fromId toId : String) (amount : Int)
    (descr : String) (now1 now2 : Nat) (idOut idIn : String) : AppState :=
  let s1 := addTransaction s (transferOutTx s fromId toId amount descr now1 idOut)
  addTransaction s1 (transferInTx s fromId toId amount descr now2 idIn)

/-- The debt record built by `handleSubmit` in `DebtManagement`: remaining
amount and initial amount both start at the entered amount, unpaid. -/
def newDebtFromForm (debtId title : String) (a : Int) (due : Nat)
    (ty : TransactionType) (walletId : String) : Debt :=
  { id := debtId,
    title := title,
    amount := a,
    initialAmount := a,
    dueDate := due,
    type := ty,
    isPaid := false,
    walletId := walletId }

/-- The debt-record update inside `handlePaymentConfirm`:
`newAmount = debt.amount - amount; isNowPaid = newAmount <= 0;`
stored as `amount: Math.max(0, newAmount), isPaid: isNowPaid`. -/
def repayDebt (d : Debt) (p : Int) : Debt :=
  { d with
    amount := max 0 (d.amount - p),
    isPaid := decide (d.amount - p ≤ 0) }

/-- The offsetting transaction posted by `handlePaymentConfirm`: EXPENSE when
paying down a DEBT, INCOME when collecting a RECEIVABLE, for the raw entered
payment amount, against the debt's settlement wallet. -/
def paymentTx (d : Debt) (p : Int) (txId : String) (now : Nat) : Transaction :=
  { id := txId,
    amount := p,
    type := if d.type == TransactionType.DEBT then TransactionType.EXPENSE
            else TransactionType.INCOME,
    category := "Others",
    date := now,
    description := "Payment for " ++ d.title ++ " ("
      ++ (if d.amount ≤ p then "Full" else "Partial") ++ ")",
    walletId := d.walletId }

/-- The `handlePaymentConfirm` handler of `DebtManagement`, lifted to the application
state: `onUpdateDebt` replaces the debt record (the `App` handler maps the
debts list by id), then `onAddTransaction` posts the offsetting transaction
through the balance-mutation path. -/
def handlePaymentConfirm (s : AppState) (d : Debt) (p : Int)
    (txId : String) (now : Nat) : AppState :=
  let s1 : AppState :=
    { s with debts := s.debts.map (fun x => if x.id == d.id then repayDebt d p else x) }
  addTransaction s1 (paymentTx d p txId now)

/-- The JS fallback `debtToDelete.initialAmount || debtToDelete.amount`:
`initialAmount` is used unless it is falsy (zero). -/
def debtBase (d : Debt) : Int :=
  if d.initialAmount == 0 then d.amount else d.initialAmount

/-- The description the originating loan transaction was created with
(`handleSubmit`) and that `onDeleteDebt` searches for. -/
def linkedDescr (d : Debt) : String :=
  "New " ++ (if d.type == TransactionType.DEBT then "Hutang" else "Piutang")
    ++ ": " ++ d.title

/-- The lookup predicate `onDeleteDebt` uses to find the originating loan
transaction: matching description, category `Loan`, and amount equal to the
initial amount (with the `|| amount` fallback). -/
def linkedPred (d : Debt) (t : Transaction) : Bool :=
  t.description == linkedDescr d && t.category == "Loan" && t.amount == debtBase d

/-- The `onDeleteDebt` handler of the main `App` component: reverts the settlement
wallet's balance by the inverse of the creation effect (subtracting the
initial amount for DEBT, adding it for RECEIVABLE) unconditionally, then
deletes the originating loan transaction if the lookup finds one, then
deletes the debt record. -/
def onDeleteDebt (s : AppState) (i : String) : AppState :=
  match s.debts.find? (fun x => x.id == i) with
  | none => s
  | some d =>
      let rev : Int :=
        if d.type == TransactionType.DEBT then -(debtBase d) else debtBase d
      let ws := applyDelta s.wallets d.walletId rev
      let txs :=
        match s.transactions.find? (linkedPred d) with
        | none => s.transactions
        | some ltx => s.transactions.filter (fun t => t.id != ltx.id)
      { wallets := ws, transactions := txs, debts := s.debts.filter (fun x => x.id != i) }

/-- Signed sum of the ledger entries referencing a wallet, under the
balance-mutation engine's own convention (`txDelta`). -/
def signedSum (txs : List Transaction) (wid : String) : Int :=
  ((txs.filter (fun t => t.walletId == wid)).map txDelta).sum

/-! ### Aggregation/reporting builders (the two running-balance call sites) -/

/-- Stable insertion of a transaction into a date-ascending list, modelling the
stable `Array.prototype.sort((a, b) => dateA - dateB)` used by both chart
builders. -/
def insertByDate (t : Transaction) : List Transaction → List Transaction
  | [] => [t]
  | u :: us => if t.date < u.date then t :: u :: us else u :: insertByDate t us

/-- Sort the transaction log ascending by date (stable). -/
def sortByDate (l : List Transaction) : List Transaction :=
  l.foldl (fun acc t => insertByDate t acc) []

/-- Signed delta used by the `Stats` chart builder:
`isIncrease = t.type === INCOME || t.type === RECEIVABLE`. -/
def statsTxDelta (t : Transaction) : Int :=
  if t.type == TransactionType.INCOME || t.type == TransactionType.RECEIVABLE then
    t.amount
  else
    -t.amount

/-- Per-day net change accumulated by the `Stats` builder's `groupedByDay`. -/
def daySum (txs : List Transaction) (k : Nat) : Int :=
  ((txs.filter (fun t => t.date == k)).map statsTxDelta).sum

/-- Forward fold producing the cumulative balance series. -/
def runSeries (b : Int) : List Int → List Int
  | [] => []
  | d :: ds => (b + d) :: runSeries (b + d) ds

/-- The value series of `chartData` in `Stats.tsx`: anchor at the sum of the
current wallet balances, group the date-sorted log by day, fold forward with
the INCOME/RECEIVABLE-positive convention, and prepend the start point (two
flat points when the log is empty). -/
def statsChartValues (ws : List Wallet) (txs : List Transaction) : List Int :=
  let initial := balSum ws
  let sorted := sortByDate txs
  let keys := (sorted.map Transaction.date).dedup
  let series := runSeries initial (keys.map (fun k => daySum sorted k))
  if series.isEmpty then [initial, initial] else initial :: series

/-- The value series of `chartData` in `WalletManagement`: back the anchor out
of the current total using the INCOME/DEBT-positive convention, then fold
forward per transaction with that same convention, prepending the start point
(two flat points when the log is empty). -/
def wmChartValues (ws : List Wallet) (txs : List Transaction) : List Int :=
  let total := balSum ws
  let net := (txs.map txDelta).sum
  let initial := total - net
  let sorted := sortByDate txs
  let series := runSeries initial (sorted.map txDelta)
  if series.isEmpty then [initial, initial] else initial :: series

/-- The debt-record invariant stated by the spec: the remaining amount stays
between zero and the principal, and the paid flag tracks exactly the zero
remainder. -/
def debtInv (d : Debt) : Prop :=
  0 ≤ d.amount ∧ d.amount ≤ d.initialAmount ∧ (d.isPaid = true ↔ d.amount = 0)

/-! ### Concrete sample data used by witnesses and counterexamples -/

/-- A sample cash wallet. -/
def wCash : Wallet :=
  { id := "wA", name := "Cash", balance := 500000, color := "g", icon := "fa",
    type := WalletType.CASH, provider := none, detail := none }

/-- A sample bank wallet. -/
def wBank : Wallet :=
  { id := "wB", name := "Bank", balance := 0, color := "b", icon := "fb",
    type := WalletType.BANK, provider := none, detail := none }

/-- A state holding only the cash wallet. -/
def sOne : AppState := { wallets := [wCash], transactions := [], debts := [] }

/-- A state holding both sample wallets. -/
def sTwo : AppState := { wallets := [wCash, wBank], transactions := [], debts := [] }

/-- A sample income transaction on the cash wallet. -/
def txIncome : Transaction :=
  { id := "t1", amount := 40000, type := TransactionType.INCOME, category := "Gaji",
    date := 1, description := "salary", walletId := "wA" }

/-- A transaction with a non-positive amount whose wallet id resolves to no
wallet in `sOne`. -/
def txGhost : Transaction :=
  { id := "t2", amount := -5, type := TransactionType.EXPENSE, category := "Others",
    date := 2, description := "ghost", walletId := "zz" }

/-- A DEBT-typed ledger entry on the cash wallet, for the chart comparison. -/
def txDebtEntry : Transaction :=
  { id := "t3", amount := 40, type := TransactionType.DEBT, category := "Loan",
    date := 1, description := "loan", walletId := "wA" }

/-- An open debt of 100 against the cash wallet. -/
def dOpen : Debt :=
  { id := "d1", title := "Pinjam Teman", amount := 100, initialAmount := 100,
    dueDate := 9, type := TransactionType.DEBT, isPaid := false, walletId := "wA" }

/-- A fully settled debt against the cash wallet. -/
def dPaid : Debt :=
  { id := "d2", title := "Lunas", amount := 0, initialAmount := 100,
    dueDate := 9, type := TransactionType.DEBT, isPaid := true, walletId := "wA" }

/-- The originating loan transaction `handleSubmit` posts for `dOpen`, matching
the lookup performed by `onDeleteDebt`. -/
def txLoanLinked : Transaction :=
  { id := "t4", amount := 100, type := TransactionType.DEBT, category := "Loan",
    date := 1, description := "New Hutang: Pinjam Teman", walletId := "wA" }

/-- A state with the open debt and its originating loan transaction. -/
def sDebt : AppState :=
  { wallets := [wCash], transactions := [txLoanLinked], debts := [dOpen] }

/-- A state with the open debt but no transaction matching the loan lookup. -/
def sDebt0 : AppState :=
  { wallets := [wCash], transactions := [], debts := [dOpen] }

/-- A state with the settled debt. -/
def sPaid : AppState :=
  { wallets := [wCash], transactions := [], debts := [dPaid] }

/-! ### Helper lemmas about the wallet-list update -/

theorem find?_id_eq {l : List Wallet} {i : String} {w : Wallet}
    (h : l.find? (fun x => x.id == i) = some w) : w.id = i := by
  have h2 := List.find?_some h
  simpa using h2

theorem applyDelta_of_none {l : List Wallet} {i : String} (d : Int)
    (h : l.find? (fun x => x.id == i) = none) : applyDelta l i d = l := by
  unfold applyDelta
  rw [h]

theorem applyDelta_of_some {l : List Wallet} {i : String} {w : Wallet} (d : Int)
    (h : l.find? (fun x => x.id == i) = some w) :
    applyDelta l i d
      = l.map (fun x => if x.id == i then { w with balance := w.balance + d } else x) := by
  unfold applyDelta
  rw [h]

theorem map_update_of_no_match {l : List Wallet} {i : String} (v : Wallet)
    (h : ∀ x ∈ l, x.id ≠ i) :
    l.map (fun x => if x.id == i then v else x) = l := by
  induction l with
  | nil => rfl
  | cons a t ih =>
    have ha : ¬ ((a.id == i) = true) :=
      fun hc => h a (List.mem_cons_self a t) (by simpa using hc)
    simp only [List.map_cons]
    rw [if_neg ha, ih (fun x hx => h x (List.mem_cons_of_mem a hx))]

theorem find?_map_update_self {l : List Wallet} {i : String} {w v : Wallet}
    (h : l.find? (fun x => x.id == i) = some w) (hv : v.id = i) :
    (l.map (fun x => if x.id == i then v else x)).find? (fun x => x.id == i) = some v := by
  induction l with
  | nil => simp at h
  | cons a t ih =>
    by_cases hai : a.id = i
    · have hb : (a.id == i) = true := by simpa using hai
      simp only [List.map_cons]
      rw [if_pos hb]
      exact List.find?_cons_of_pos (p := fun (x : Wallet) => x.id == i) _ (show (v.id == i) = true by simpa using hv)
    · have hb : ¬ ((a.id == i) = true) := fun hc => hai (by simpa using hc)
      have h2 : t.find? (fun x => x.id == i) = some w := by
        rwa [List.find?_cons_of_neg (p := fun (x : Wallet) => x.id == i) _ hb] at h
      simp only [List.map_cons]
      rw [if_neg hb, List.find?_cons_of_neg (p := fun (x : Wallet) => x.id == i) _ hb]
      exact ih h2

theorem find?_map_update_ne {l : List Wallet} {i j : String} {v : Wallet}
    (hv : v.id = i) (hij : i ≠ j) :
    (l.map (fun x => if x.id == i then v else x)).find? (fun x => x.id == j)
      = l.find? (fun x => x.id == j) := by
  induction l with
  | nil => rfl
  | cons a t ih =>
    by_cases hai : a.id = i
    · have hb : (a.id == i) = true := by simpa using hai
      have hvj : ¬ ((v.id == j) = true) := fun hc => hij (hv ▸ (by simpa using hc))
      have haj : ¬ ((a.id == j) = true) := fun hc => hij (hai ▸ (by simpa using hc))
      simp only [List.map_cons]
      rw [if_pos hb, List.find?_cons_of_neg (p := fun (x : Wallet) => x.id == j) _ hvj, List.find?_cons_of_neg (p := fun (x : Wallet) => x.id == j) _ haj]
      exact ih
    · have hb : ¬ ((a.id == i) = true) := fun hc => hai (by simpa using hc)
      by_cases haj : a.id = j
      · have hbj : (a.id == j) = true := by simpa using haj
        simp only [List.map_cons]
        rw [if_neg hb, List.find?_cons_of_pos (p := fun (x : Wallet) => x.id == j) _ hbj, List.find?_cons_of_pos (p := fun (x : Wallet) => x.id == j) _ hbj]
      · have hbj : ¬ ((a.id == j) = true) := fun hc => haj (by simpa using hc)
        simp only [List.map_cons]
        rw [if_neg hb, List.find?_cons_of_neg (p := fun (x : Wallet) => x.id == j) _ hbj, List.find?_cons_of_neg (p := fun (x : Wallet) => x.id == j) _ hbj]
        exact ih

theorem balSum_cons (a : Wallet) (t : List Wallet) :
    balSum (a :: t) = a.balance + balSum t := by
  simp [balSum]

theorem balSum_applyDelta {l : List Wallet} {i : String} {w : Wallet} (d : Int)
    (hnd : (l.map Wallet.id).Nodup)
    (h : l.find? (fun x => x.id == i) = some w) :
    balSum (applyDelta l i d) = balSum l + d := by
  induction l with
  | nil => simp at h
  | cons a t ih =>
    have hnd2 : (t.map Wallet.id).Nodup := by
      simp only [List.map_cons, List.nodup_cons] at hnd
      exact hnd.2
    have hmem : a.id ∉ t.map Wallet.id := by
      simp only [List.map_cons, List.nodup_cons] at hnd
      exact hnd.1
    rw [applyDelta_of_some d h]
    by_cases hai : a.id = i
    · have hb : (a.id == i) = true := by simpa using hai
      have hw : a = w := by
        have hfc := List.find?_cons_of_pos (p := fun (x : Wallet) => x.id == i) t hb
        rw [hfc] at h
        exact Option.some.inj h
      have hnomatch : ∀ x ∈ t, x.id ≠ i := by
        intro x hx hxid
        exact hmem (by simpa [hai, ← hxid] using List.mem_map_of_mem Wallet.id hx)
      simp only [List.map_cons]
      rw [if_pos hb, map_update_of_no_match _ hnomatch, balSum_cons, balSum_cons, ← hw]
      ring
    · have hb : ¬ ((a.id == i) = true) := fun hc => hai (by simpa using hc)
      have h2 : t.find? (fun x => x.id == i) = some w := by
        rwa [List.find?_cons_of_neg (p := fun (x : Wallet) => x.id == i) _ hb] at h
      simp only [List.map_cons]
      rw [if_neg hb, ← applyDelta_of_some d h2, balSum_cons, balSum_cons, ih hnd2 h2]
      ring

theorem applyDelta_applyDelta_neg {l : List Wallet} {i : String} (d : Int)
    (hnd : (l.map Wallet.id).Nodup) :
    applyDelta (applyDelta l i d) i (-d) = l := by
  cases hf : l.find? (fun x => x.id == i) with
  | none =>
    rw [applyDelta_of_none d hf, applyDelta_of_none (-d) hf]
  | some w =>
    have hw : w.id = i := find?_id_eq hf
    have hwmem : w ∈ l := List.mem_of_find?_eq_some hf
    have hv1 : (({ w with balance := w.balance + d } : Wallet)).id = i := hw
    have hfind1 :
        (l.map (fun x => if x.id == i then { w with balance := w.balance + d } else x)).find?
          (fun x => x.id == i) = some { w with balance := w.balance + d } :=
      find?_map_update_self hf hv1
    rw [applyDelta_of_some d hf, applyDelta_of_some (-d) hfind1, List.map_map]
    have hstep : ∀ x ∈ l,
        ((fun x => if x.id == i then
            { { w with balance := w.balance + d } with
                balance := ({ w with balance := w.balance + d } : Wallet).balance + -d }
          else x) ∘
         (fun x => if x.id == i then { w with balance := w.balance + d } else x)) x = x := by
      intro x hx
      by_cases hxi : x.id = i
      · have hb : (x.id == i) = true := by simpa using hxi
        have hxw : x = w :=
          List.inj_on_of_nodup_map hnd hx hwmem (by rw [hxi, hw])
        have hb2 : (({ w with balance := w.balance + d } : Wallet).id == i) = true := by
          simpa using hv1
        simp only [Function.comp_apply]
        rw [if_pos hb, if_pos hb2]
        subst hxw
        simp
      · have hb : ¬ ((x.id == i) = true) := fun hc => hxi (by simpa using hc)
        simp only [Function.comp_apply]
        rw [if_neg hb, if_neg hb]
    rw [List.map_congr_left hstep]
    simp

theorem applyDelta_find?_self {l : List Wallet} {i : String} {w : Wallet} (d : Int)
    (h : l.find? (fun x => x.id == i) = some w) :
    (applyDelta l i d).find? (fun x => x.id == i)
      = some { w with balance := w.balance + d } := by
  rw [applyDelta_of_some d h]
  have hwid : w.id = i := find?_id_eq h
  exact find?_map_update_self h hwid

theorem applyDelta_find?_ne {l : List Wallet} {i j : String} (d : Int) (hij : i ≠ j) :
    (applyDelta l i d).find? (fun x => x.id == j) = l.find? (fun x => x.id == j) := by
  cases hf : l.find? (fun x => x.id == i) with
  | none => rw [applyDelta_of_none d hf]
  | some w =>
    rw [applyDelta_of_some d hf]
    have hwid : w.id = i := find?_id_eq hf
    exact find?_map_update_ne hwid hij

theorem applyDelta_map_id (l : List Wallet) (i : String) (d : Int) :
    (applyDelta l i d).map Wallet.id = l.map Wallet.id := by
  cases hf : l.find? (fun x => x.id == i) with
  | none => rw [applyDelta_of_none d hf]
  | some w =>
    have hw : w.id = i := find?_id_eq hf
    rw [applyDelta_of_some d hf, List.map_map]
    apply List.map_congr_left
    intro x hx
    by_cases hxi : x.id = i
    · have hb : (x.id == i) = true := by simpa using hxi
      simp only [Function.comp_apply]
      rw [if_pos hb]
      show w.id = x.id
      rw [hw, hxi]
    · have hb : ¬ ((x.id == i) = true) := fun hc => hxi (by simpa using hc)
      simp only [Function.comp_apply]
      rw [if_neg hb]

theorem txDelta_eq_sign (t : Transaction) : txDelta t = txSign t.type * t.amount := by
  cases ht : t.type <;> simp [txDelta, txSign, ht, neg_mul, one_mul]

/-! ### Claim theorems -/

/-- Claim C1: for every wallet `w` and every transaction `t` with
`t.walletId == w.id`, posting `t` through the balance-mutation path of
`addTransaction` changes only `w`'s balance field and sets it to
`balance + sign(t.type) * t.amount`, where `sign(INCOME) = +1`,
`sign(EXPENSE) = -1`, `sign(DEBT) = +1`, `sign(RECEIVABLE) = -1`; no
field of `w` other than `balance` changes. -/
theorem claim1_balance_mutation (s : AppState) (t : Transaction) (w : Wallet)
    (h : s.wallets.find? (fun x => x.id == t.walletId) = some w) :
    (addTransaction s t).wallets
      = s.wallets.map (fun x => if x.id == t.walletId then
          { w with balance := w.balance + txSign t.type * t.amount } else x)
    ∧ (addTransaction s t).transactions = t :: s.transactions
    ∧ txSign TransactionType.INCOME = 1 ∧ txSign TransactionType.EXPENSE = -1
    ∧ txSign TransactionType.DEBT = 1 ∧ txSign TransactionType.RECEIVABLE = -1 := by
  refine ⟨?_, rfl, rfl, rfl, rfl, rfl⟩
  show applyDelta s.wallets t.walletId (txDelta t) = _
  rw [txDelta_eq_sign, applyDelta_of_some _ h]

/-- Witness for claim C1 at a concrete input. -/
theorem claim1_balance_mutation_witness :
    sOne.wallets.find? (fun x => x.id == txIncome.walletId) = some wCash
    ∧ ((addTransaction sOne txIncome).wallets
        = sOne.wallets.map (fun x => if x.id == txIncome.walletId then
            { wCash with balance := wCash.balance + txSign txIncome.type * txIncome.amount } else x)
      ∧ (addTransaction sOne txIncome).transactions = txIncome :: sOne.transactions
      ∧ txSign TransactionType.INCOME = 1 ∧ txSign TransactionType.EXPENSE = -1
      ∧ txSign TransactionType.DEBT = 1 ∧ txSign TransactionType.RECEIVABLE = -1) :=
  ⟨by decide, claim1_balance_mutation sOne txIncome wCash (by decide)⟩

theorem repayDebt_preserves_inv {d : Debt} {p : Int} (hd : debtInv d) (hp : 0 < p) :
    debtInv (repayDebt d p) := by
  obtain ⟨h0, hle, hiff⟩ := hd
  have hamt : (repayDebt d p).amount = max 0 (d.amount - p) := rfl
  have hini : (repayDebt d p).initialAmount = d.initialAmount := rfl
  have hpd : (repayDebt d p).isPaid = decide (d.amount - p ≤ 0) := rfl
  refine ⟨?_, ?_, ?_⟩
  · rw [hamt]
    exact le_max_left _ _
  · rw [hamt, hini]
    apply max_le (le_trans h0 hle)
    omega
  · rw [hamt, hpd]
    rcases le_total (d.amount - p) 0 with hc | hc
    · rw [max_eq_left hc]
      simp [hc]
    · rw [max_eq_right hc]
      simp only [decide_eq_true_eq]
      constructor
      · intro hle2
        omega
      · intro heq
        omega

theorem foldl_repay_inv (ps : List Int) (d : Debt) (hd : debtInv d)
    (hps : ∀ p ∈ ps, 0 < p) : debtInv (ps.foldl repayDebt d) := by
  induction ps generalizing d with
  | nil => exact hd
  | cons p ps ih =>
    exact ih (repayDebt d p)
      (repayDebt_preserves_inv hd (hps p (by simp)))
      (fun q hq => hps q (by simp [hq]))

/-- Claim C2: for every debt record, starting from creation
(`amount = initialAmount > 0`, `isPaid = false`) and across any sequence of
repayment calls (the `handlePaymentConfirm` debt update) with positive payment
amounts, the invariant `0 <= amount <= initialAmount` holds and `isPaid` is
true if and only if `amount == 0`. -/
theorem claim2_debt_invariant (debtId title : String) (a : Int) (due : Nat)
    (ty : TransactionType) (wid : String) (ha : 0 < a)
    (ps : List Int) (hps : ∀ p ∈ ps, 0 < p) :
    debtInv (ps.foldl repayDebt (newDebtFromForm debtId title a due ty wid)) := by
  apply foldl_repay_inv ps _ _ hps
  refine ⟨le_of_lt ha, le_refl a, ?_⟩
  have hpd : (newDebtFromForm debtId title a due ty wid).isPaid = false := rfl
  have hamt : (newDebtFromForm debtId title a due ty wid).amount = a := rfl
  rw [hpd, hamt]
  constructor
  · intro hfalse
    exact absurd hfalse (by simp)
  · intro hz
    exact absurd hz (by omega)

/-- Witness for claim C2 at a concrete input: the spec scenario
(principal 200000, repayments 50000 then 150000). -/
theorem claim2_debt_invariant_witness :
    (0 : Int) < 200000
    ∧ (∀ p ∈ ([50000, 150000] : List Int), 0 < p)
    ∧ debtInv (([50000, 150000] : List Int).foldl repayDebt
        (newDebtFromForm "d9" "Pinjam Teman" 200000 9 TransactionType.DEBT "wA")) :=
  ⟨by decide, by decide,
    claim2_debt_invariant "d9" "Pinjam Teman" 200000 9 TransactionType.DEBT "wA"
      (by decide) [50000, 150000] (by decide)⟩

/-- Claim C5: for every wallet `w` and every transaction `t` targeting `w`,
applying `t` via `addTransaction` and then deleting the same `t` via
`deleteTransaction` returns the state (in particular `w`'s balance) to exactly
its prior value: the delete applies the exact inverse signed delta of the
apply, for all four transaction types. -/
theorem claim5_roundtrip (s : AppState) (t : Transaction) (w : Wallet)
    (hw : s.wallets.find? (fun x => x.id == t.walletId) = some w)
    (hnd : (s.wallets.map Wallet.id).Nodup)
    (hfresh : ∀ u ∈ s.transactions, u.id ≠ t.id) :
    deleteTransaction (addTransaction s t) t.id = s := by
  have hadd : addTransaction s t
      = { wallets := applyDelta s.wallets t.walletId (txDelta t),
          transactions := t :: s.transactions, debts := s.debts } := rfl
  rw [hadd]
  unfold deleteTransaction
  have hfind : (t :: s.transactions).find? (fun u => u.id == t.id) = some t :=
    List.find?_cons_of_pos _ (by simp)
  simp only [hfind]
  have h1 : applyDelta (applyDelta s.wallets t.walletId (txDelta t)) t.walletId
      (-(txDelta t)) = s.wallets :=
    applyDelta_applyDelta_neg _ hnd
  have hhead : ¬ ((t.id != t.id) = true) := by simp
  have h2 : (t :: s.transactions).filter (fun u => u.id != t.id) = s.transactions := by
    rw [List.filter_cons_of_neg (p := fun (u : Transaction) => u.id != t.id) hhead]
    exact List.filter_eq_self.mpr (fun u hu => by simpa using hfresh u hu)
  rw [h1, h2]

/-- Witness for claim C5 at a concrete input. -/
theorem claim5_roundtrip_witness :
    sOne.wallets.find? (fun x => x.id == txIncome.walletId) = some wCash
    ∧ (sOne.wallets.map Wallet.id).Nodup
    ∧ (∀ u ∈ sOne.transactions, u.id ≠ txIncome.id)
    ∧ deleteTransaction (addTransaction sOne txIncome) txIncome.id = sOne :=
  ⟨by decide, by decide, by decide,
    claim5_roundtrip sOne txIncome wCash (by decide) (by decide) (by decide)⟩

/-- Claim C6 counterexample: `addTransaction` does not fail and does not leave
state unchanged when the wallet is missing and the amount is non-positive —
the transaction is still recorded, refuting both the `WalletNotFound` and the
`InvalidAmount` clauses of the claim at this input. -/
theorem claim6_counterexample :
    sOne.wallets.find? (fun x => x.id == txGhost.walletId) = none
    ∧ txGhost.amount ≤ 0
    ∧ addTransaction sOne txGhost ≠ sOne
    ∧ (addTransaction sOne txGhost).transactions = txGhost :: sOne.transactions := by
  decide

/-- Claim C6 (amended): `addTransaction` performs no validation and has no
failure path: it always records the transaction — even when `amount ≤ 0` —
and when `transaction.walletId` resolves to no wallet it silently skips the
balance update, leaving the wallet list unchanged while the transaction is
still recorded. -/
theorem claim6_amended_no_validation (s : AppState) (t : Transaction)
    (h : s.wallets.find? (fun x => x.id == t.walletId) = none) :
    (addTransaction s t).wallets = s.wallets
    ∧ (addTransaction s t).transactions = t :: s.transactions :=
  ⟨applyDelta_of_none _ h, rfl⟩

/-- Witness for the amended claim C6 at a concrete input with a missing wallet
and a non-positive amount. -/
theorem claim6_amended_no_validation_witness :
    sOne.wallets.find? (fun x => x.id == txGhost.walletId) = none
    ∧ ((addTransaction sOne txGhost).wallets = sOne.wallets
      ∧ (addTransaction sOne txGhost).transactions = txGhost :: sOne.transactions) :=
  ⟨by decide, claim6_amended_no_validation sOne txGhost (by decide)⟩

/-- Claim C9: the two running-balance aggregation call sites use mutually
inconsistent sign conventions for DEBT/RECEIVABLE — the `Stats` builder counts
INCOME and RECEIVABLE as increases, the `WalletManagement` builder counts
INCOME and DEBT as increases — so for a history containing a DEBT entry the
two builders produce different balance series from the same snapshot. -/
theorem claim9_inconsistent_chart_conventions :
    statsTxDelta txDebtEntry = -40
    ∧ txDelta txDebtEntry = 40
    ∧ statsChartValues [wCash] [txDebtEntry] = [500000, 499960]
    ∧ wmChartValues [wCash] [txDebtEntry] = [499960, 500000]
    ∧ statsChartValues [wCash] [txDebtEntry] ≠ wmChartValues [wCash] [txDebtEntry] := by
  decide

/-- Claim C4 counterexample: the source reads the clock separately for each
transfer leg, so the two posted transactions need not be dated identically —
with clock samples 3 (outgoing leg) and 4 (incoming leg) the transfer posts
its two `Transfer` entries with different dates, refuting the claim's
"both dated identically" conjunct at this input. -/
theorem claim4_counterexample :
    (handleTransfer sTwo "wA" "wB" 200000 "move" 3 4 "o1" "i1").transactions.map
        Transaction.category = ["Transfer", "Transfer"]
    ∧ (handleTransfer sTwo "wA" "wB" 200000 "move" 3 4 "o1" "i1").transactions.map
        Transaction.date = [4, 3]
    ∧ ((4 : Nat) ≠ 3) := by
  decide

/-- Claim C4 (amended): for every pair of distinct wallets A and B and every
`amount > 0`, `handleTransfer` creates exactly two transactions — an EXPENSE
on A and an INCOME on B, both with category `Transfer`, each dated by its own
clock sample (the source reads the clock separately per leg, so the two dates
coincide only when the two samples do) — and when both legs succeed, A's
balance decreases by `amount`, B's balance increases by `amount`, and the sum
of all wallet balances is unchanged. -/
theorem claim4_amended_transfer (s : AppState) (fromId toId : String) (amount : Int)
    (descr : String) (now1 now2 : Nat) (idOut idIn : String) (wa wb : Wallet)
    (hne : fromId ≠ toId) (hamt : 0 < amount)
    (hnd : (s.wallets.map Wallet.id).Nodup)
    (hwa : s.wallets.find? (fun x => x.id == fromId) = some wa)
    (hwb : s.wallets.find? (fun x => x.id == toId) = some wb) :
    (handleTransfer s fromId toId amount descr now1 now2 idOut idIn).transactions
      = transferInTx s fromId toId amount descr now2 idIn
        :: transferOutTx s fromId toId amount descr now1 idOut :: s.transactions
    ∧ (transferOutTx s fromId toId amount descr now1 idOut).type = TransactionType.EXPENSE
    ∧ (transferOutTx s fromId toId amount descr now1 idOut).category = "Transfer"
    ∧ (transferOutTx s fromId toId amount descr now1 idOut).walletId = fromId
    ∧ (transferOutTx s fromId toId amount descr now1 idOut).date = now1
    ∧ (transferOutTx s fromId toId amount descr now1 idOut).amount = amount
    ∧ (transferInTx s fromId toId amount descr now2 idIn).type = TransactionType.INCOME
    ∧ (transferInTx s fromId toId amount descr now2 idIn).category = "Transfer"
    ∧ (transferInTx s fromId toId amount descr now2 idIn).walletId = toId
    ∧ (transferInTx s fromId toId amount descr now2 idIn).date = now2
    ∧ (transferInTx s fromId toId amount descr now2 idIn).amount = amount
    ∧ (handleTransfer s fromId toId amount descr now1 now2 idOut idIn).wallets.find?
        (fun x => x.id == fromId) = some { wa with balance := wa.balance - amount }
    ∧ (handleTransfer s fromId toId amount descr now1 now2 idOut idIn).wallets.find?
        (fun x => x.id == toId) = some { wb with balance := wb.balance + amount }
    ∧ balSum (handleTransfer s fromId toId amount descr now1 now2 idOut idIn).wallets
        = balSum s.wallets := by
  have hstate : (handleTransfer s fromId toId amount descr now1 now2 idOut idIn).wallets
      = applyDelta (applyDelta s.wallets fromId (-amount)) toId amount := rfl
  have hfb1 : (applyDelta s.wallets fromId (-amount)).find? (fun x => x.id == toId)
      = some wb := (applyDelta_find?_ne (-amount) hne).trans hwb
  have hfa1 : (applyDelta s.wallets fromId (-amount)).find? (fun x => x.id == fromId)
      = some { wa with balance := wa.balance + -amount } := applyDelta_find?_self (-amount) hwa
  have hnd1 : ((applyDelta s.wallets fromId (-amount)).map Wallet.id).Nodup := by
    rw [applyDelta_map_id]
    exact hnd
  refine ⟨rfl, rfl, rfl, rfl, rfl, rfl, rfl, rfl, rfl, rfl, rfl, ?_, ?_, ?_⟩
  · rw [hstate, applyDelta_find?_ne amount (Ne.symm hne), hfa1, ← sub_eq_add_neg]
  · rw [hstate, applyDelta_find?_self amount hfb1]
  · rw [hstate, balSum_applyDelta amount hnd1 hfb1,
      balSum_applyDelta (-amount) hnd hwa]
    ring

/-- Witness for the amended claim C4 at a concrete input: the spec transfer
scenario (500000 in A, 0 in B, move 200000), with distinct clock samples. -/
theorem claim4_amended_transfer_witness :
    (("wA" : String) ≠ "wB")
    ∧ ((0 : Int) < 200000)
    ∧ (handleTransfer sTwo "wA" "wB" 200000 "move" 3 4 "o1" "i1").transactions
        = transferInTx sTwo "wA" "wB" 200000 "move" 4 "i1"
          :: transferOutTx sTwo "wA" "wB" 200000 "move" 3 "o1" :: sTwo.transactions :=
  ⟨by decide, by decide,
    (claim4_amended_transfer sTwo "wA" "wB" 200000 "move" 3 4 "o1" "i1" wCash wBank
      (by decide) (by decide) (by decide) (by decide) (by decide)).1⟩

theorem txDelta_paymentTx (d : Debt) (p : Int) (txId : String) (now : Nat) :
    txDelta (paymentTx d p txId now)
      = (if d.type == TransactionType.DEBT then -p else p) := by
  by_cases hdt : (d.type == TransactionType.DEBT) = true
  · simp [txDelta, paymentTx, hdt]
  · simp [txDelta, paymentTx, hdt]

/-- Claim C3 counterexample: repaying the open debt of 100 with a payment of
150 drives the remaining amount to the clamped value 0 (effective payment
`min 150 100 = 100`) but posts an offsetting transaction of 150, which is more
than the effective payment, refuting the claim at this input. -/
theorem claim3_counterexample :
    min (150 : Int) dOpen.amount = 100
    ∧ (handlePaymentConfirm sDebt0 dOpen 150 "tp" 7).debts.map Debt.amount = [0]
    ∧ (handlePaymentConfirm sDebt0 dOpen 150 "tp" 7).transactions.map Transaction.amount
        = [150]
    ∧ ((150 : Int) ≠ 100) := by
  decide

/-- Claim C3 (amended): for every open debt D and every payment
`0 < paymentAmount ≤ D.amount` (the repayment modal rejects larger inputs),
repayment decreases `D.amount` by exactly `paymentAmount`, sets `isPaid`
exactly when the remainder reaches zero, and posts exactly one offsetting
transaction — EXPENSE when `D.type == DEBT` and INCOME when
`D.type == RECEIVABLE` — whose amount equals `paymentAmount`, against
`D.walletId`; when called with `paymentAmount > D.amount` the debt amount is
clamped to zero but the posted transaction carries the full `paymentAmount`,
exceeding the effective payment. -/
theorem claim3_amended_repay (s : AppState) (d : Debt) (p : Int)
    (txId : String) (now : Nat) (w : Wallet)
    (hp : 0 < p) (hple : p ≤ d.amount)
    (hw : s.wallets.find? (fun x => x.id == d.walletId) = some w) :
    (handlePaymentConfirm s d p txId now).debts
      = s.debts.map (fun x => if x.id == d.id then
          { d with amount := d.amount - p, isPaid := decide (d.amount ≤ p) } else x)
    ∧ (handlePaymentConfirm s d p txId now).transactions
        = paymentTx d p txId now :: s.transactions
    ∧ (paymentTx d p txId now).amount = p
    ∧ (paymentTx d p txId now).walletId = d.walletId
    ∧ (paymentTx d p txId now).type
        = (if d.type == TransactionType.DEBT then TransactionType.EXPENSE
           else TransactionType.INCOME)
    ∧ (handlePaymentConfirm s d p txId now).wallets.find? (fun x => x.id == d.walletId)
        = some { w with balance := w.balance
            + (if d.type == TransactionType.DEBT then -p else p) } := by
  have hrep : repayDebt d p
      = { d with amount := d.amount - p, isPaid := decide (d.amount ≤ p) } := by
    unfold repayDebt
    have hdec : decide (d.amount - p ≤ 0) = decide (d.amount ≤ p) :=
      decide_eq_decide.mpr (by omega)
    rw [max_eq_right (by omega), hdec]
  refine ⟨?_, rfl, rfl, rfl, rfl, ?_⟩
  · show s.debts.map (fun x => if x.id == d.id then repayDebt d p else x) = _
    rw [hrep]
  · show (applyDelta s.wallets d.walletId (txDelta (paymentTx d p txId now))).find?
        (fun x => x.id == d.walletId) = _
    rw [txDelta_paymentTx]
    exact applyDelta_find?_self _ hw

/-- Witness for the amended claim C3 at a concrete input (partial payment of
50 on the open debt of 100). -/
theorem claim3_amended_repay_witness :
    ((0 : Int) < 50)
    ∧ ((50 : Int) ≤ dOpen.amount)
    ∧ sDebt0.wallets.find? (fun x => x.id == dOpen.walletId) = some wCash
    ∧ (handlePaymentConfirm sDebt0 dOpen 50 "tp3" 7).transactions
        = paymentTx dOpen 50 "tp3" 7 :: sDebt0.transactions :=
  ⟨by decide, by decide, by decide,
    (claim3_amended_repay sDebt0 dOpen 50 "tp3" 7 wCash
      (by decide) (by decide) (by decide)).2.1⟩

/-- Claim C8 counterexample: calling `handlePaymentConfirm` on the already
settled debt posts a new transaction and changes the wallet balance from
500000 to 499950 — neither a no-op nor an error — refuting the claim at this
input. -/
theorem claim8_counterexample :
    dPaid.isPaid = true
    ∧ (handlePaymentConfirm sPaid dPaid 50 "tp8" 8).transactions.length
        = sPaid.transactions.length + 1
    ∧ sPaid.wallets.map Wallet.balance = [500000]
    ∧ (handlePaymentConfirm sPaid dPaid 50 "tp8" 8).wallets.map Wallet.balance
        = [499950] := by
  decide

/-- Claim C8 (amended): `handlePaymentConfirm` has no settled-debt guard: for
every debt D with `isPaid == true` (`amount == 0`) and payment `p > 0` it
leaves D's record unchanged, but still posts one offsetting transaction of the
full payment amount and changes the settlement wallet's balance by the signed
payment; the repayment UI is only offered for unpaid debts, and no
`AlreadySettledError` exists. -/
theorem claim8_amended_unguarded_repay (s : AppState) (d : Debt) (p : Int)
    (txId : String) (now : Nat) (w : Wallet)
    (hpaid : d.isPaid = true) (hz : d.amount = 0) (hp : 0 < p)
    (hw : s.wallets.find? (fun x => x.id == d.walletId) = some w) :
    repayDebt d p = d
    ∧ (handlePaymentConfirm s d p txId now).debts
        = s.debts.map (fun x => if x.id == d.id then d else x)
    ∧ (handlePaymentConfirm s d p txId now).transactions
        = paymentTx d p txId now :: s.transactions
    ∧ (paymentTx d p txId now).amount = p
    ∧ (handlePaymentConfirm s d p txId now).wallets.find? (fun x => x.id == d.walletId)
        = some { w with balance := w.balance
            + (if d.type == TransactionType.DEBT then -p else p) } := by
  have hrep : repayDebt d p = d := by
    cases d with
    | mk di dti da dia dd dty dpd dw =>
      have hz2 : da = 0 := hz
      have hpd2 : dpd = true := hpaid
      subst hz2
      subst hpd2
      unfold repayDebt
      rw [max_eq_left (by omega), decide_eq_true (by omega)]
  refine ⟨hrep, ?_, rfl, rfl, ?_⟩
  · show s.debts.map (fun x => if x.id == d.id then repayDebt d p else x) = _
    rw [hrep]
  · show (applyDelta s.wallets d.walletId (txDelta (paymentTx d p txId now))).find?
        (fun x => x.id == d.walletId) = _
    rw [txDelta_paymentTx]
    exact applyDelta_find?_self _ hw

/-- Witness for the amended claim C8 at a concrete input. -/
theorem claim8_amended_unguarded_repay_witness :
    dPaid.isPaid = true
    ∧ dPaid.amount = 0
    ∧ ((0 : Int) < 50)
    ∧ repayDebt dPaid 50 = dPaid
    ∧ (handlePaymentConfirm sPaid dPaid 50 "tp8w" 8).transactions
        = paymentTx dPaid 50 "tp8w" 8 :: sPaid.transactions :=
  ⟨by decide, by decide, by decide,
    (claim8_amended_unguarded_repay sPaid dPaid 50 "tp8w" 8 wCash
      (by decide) (by decide) (by decide) (by decide)).1,
    (claim8_amended_unguarded_repay sPaid dPaid 50 "tp8w" 8 wCash
      (by decide) (by decide) (by decide) (by decide)).2.2.1⟩

theorem debtBase_of_ne_zero {d : Debt} (hinit : d.initialAmount ≠ 0) :
    debtBase d = d.initialAmount := by
  unfold debtBase
  rw [if_neg]
  intro hc
  exact hinit (by simpa using hc)

/-- Claim C7: for every existing debt D, deleting D reverts the settlement
wallet's balance by the inverse of the original creation effect computed from
`initialAmount` (subtracting `initialAmount` when `D.type == DEBT`, adding it
when `D.type == RECEIVABLE` — not using the current remaining amount), deletes
the originating loan transaction, and deletes the Debt record; repayment
transactions are not unwound. -/
theorem claim7_delete_debt (s : AppState) (i : String) (d : Debt) (w : Wallet)
    (ltx : Transaction)
    (hd : s.debts.find? (fun x => x.id == i) = some d)
    (hinit : d.initialAmount ≠ 0)
    (hw : s.wallets.find? (fun x => x.id == d.walletId) = some w)
    (hltx : s.transactions.find? (linkedPred d) = some ltx) :
    (onDeleteDebt s i).debts = s.debts.filter (fun x => x.id != i)
    ∧ (onDeleteDebt s i).transactions = s.transactions.filter (fun t => t.id != ltx.id)
    ∧ (onDeleteDebt s i).wallets.find? (fun x => x.id == d.walletId)
        = some { w with balance := w.balance
            + (if d.type == TransactionType.DEBT then -d.initialAmount
               else d.initialAmount) }
    ∧ ∀ t ∈ s.transactions, t.id ≠ ltx.id → t ∈ (onDeleteDebt s i).transactions := by
  have hstate : onDeleteDebt s i
      = { wallets := applyDelta s.wallets d.walletId
            (if d.type == TransactionType.DEBT then -(debtBase d) else debtBase d),
          transactions := s.transactions.filter (fun t => t.id != ltx.id),
          debts := s.debts.filter (fun x => x.id != i) } := by
    simp only [onDeleteDebt, hd, hltx]
  have hbase : debtBase d = d.initialAmount := debtBase_of_ne_zero hinit
  refine ⟨by rw [hstate], by rw [hstate], ?_, ?_⟩
  · rw [hstate]
    show (applyDelta s.wallets d.walletId
        (if d.type == TransactionType.DEBT then -(debtBase d) else debtBase d)).find?
        (fun x => x.id == d.walletId) = _
    rw [hbase]
    exact applyDelta_find?_self _ hw
  · intro t ht hne2
    rw [hstate]
    show t ∈ s.transactions.filter (fun t => t.id != ltx.id)
    exact List.mem_filter.mpr ⟨ht, by simpa using hne2⟩

/-- Witness for claim C7 at a concrete input: the open debt together with its
originating loan transaction. -/
theorem claim7_delete_debt_witness :
    sDebt.debts.find? (fun x => x.id == "d1") = some dOpen
    ∧ dOpen.initialAmount ≠ 0
    ∧ sDebt.transactions.find? (linkedPred dOpen) = some txLoanLinked
    ∧ (onDeleteDebt sDebt "d1").transactions
        = sDebt.transactions.filter (fun t => t.id != txLoanLinked.id) :=
  ⟨by decide, by decide, by decide,
    (claim7_delete_debt sDebt "d1" dOpen wCash txLoanLinked
      (by decide) (by decide) (by decide) (by decide)).2.1⟩

/-- Claim C10: debt deletion reverts the settlement wallet's balance
unconditionally, independent of whether the originating loan transaction is
found: when no transaction matches the lookup, `onDeleteDebt` still changes
the wallet balance by the inverse creation delta while deleting no
transaction, so afterwards the wallet balance no longer equals its opening
balance plus the signed sum of the remaining transactions referencing it. -/
theorem claim10_unconditional_revert (s : AppState) (i : String) (d : Debt)
    (w : Wallet)
    (hd : s.debts.find? (fun x => x.id == i) = some d)
    (hinit : d.initialAmount ≠ 0)
    (hw : s.wallets.find? (fun x => x.id == d.walletId) = some w)
    (hnone : s.transactions.find? (linkedPred d) = none) :
    (onDeleteDebt s i).transactions = s.transactions
    ∧ (onDeleteDebt s i).wallets.find? (fun x => x.id == d.walletId)
        = some { w with balance := w.balance
            + (if d.type == TransactionType.DEBT then -d.initialAmount
               else d.initialAmount) }
    ∧ (if d.type == TransactionType.DEBT then -d.initialAmount else d.initialAmount) ≠ 0
    ∧ ∀ openBal : Int,
        w.balance = openBal + signedSum s.transactions d.walletId →
          w.balance + (if d.type == TransactionType.DEBT then -d.initialAmount
                       else d.initialAmount)
            ≠ openBal + signedSum (onDeleteDebt s i).transactions d.walletId := by
  have hstate : onDeleteDebt s i
      = { wallets := applyDelta s.wallets d.walletId
            (if d.type == TransactionType.DEBT then -(debtBase d) else debtBase d),
          transactions := s.transactions,
          debts := s.debts.filter (fun x => x.id != i) } := by
    simp only [onDeleteDebt, hd, hnone]
  have hbase : debtBase d = d.initialAmount := debtBase_of_ne_zero hinit
  have hrev : (if d.type == TransactionType.DEBT then -d.initialAmount
      else d.initialAmount) ≠ 0 := by
    by_cases hdt : (d.type == TransactionType.DEBT) = true
    · rw [if_pos hdt]
      omega
    · rw [if_neg hdt]
      exact hinit
  refine ⟨by rw [hstate], ?_, hrev, ?_⟩
  · rw [hstate]
    show (applyDelta s.wallets d.walletId
        (if d.type == TransactionType.DEBT then -(debtBase d) else debtBase d)).find?
        (fun x => x.id == d.walletId) = _
    rw [hbase]
    exact applyDelta_find?_self _ hw
  · intro openBal hob
    rw [hstate]
    show w.balance + _ ≠ openBal + signedSum s.transactions d.walletId
    intro hcontra
    exact hrev (by omega)

/-- Witness for claim C10 at a concrete input: the open debt in a state whose
transaction log contains no matching loan entry. -/
theorem claim10_unconditional_revert_witness :
    sDebt0.debts.find? (fun x => x.id == "d1") = some dOpen
    ∧ dOpen.initialAmount ≠ 0
    ∧ sDebt0.transactions.find? (linkedPred dOpen) = none
    ∧ (onDeleteDebt sDebt0 "d1").transactions = sDebt0.transactions :=
  ⟨by decide, by decide, by decide,
    (claim10_unconditional_revert sDebt0 "d1" dOpen wCash
      (by decide) (by decide) (by decide) (by decide)).1⟩
